import Mathlib

/-
Verification of the snet-daemon per-call income validation design and of the
configuration checker.

The repository's escrow package declares the income validation capability
(escrow/income.go): the type IncomeData, the IncomeValidator contract and the
concrete incomeValidator whose Validate body is an unimplemented TODO stub
returning nil.  The validation algorithm itself exists only in the design
document; the definitions below therefore embed, on one hand, the code as it
stands (the stub, and config.Validate from the config package) and, on the
other hand, the validation algorithm modelled from the design document's
step-by-step description.
-/

/-- Error kinds of the validation outcome taxonomy (design document section 7).
A `none` outcome is Accepted; `some e` is a rejection with kind `e`. -/
inductive ErrKind where
  | invalidArgument
  | permissionDenied
  | failedPrecondition
  | resourceExhausted
  | aborted
  deriving DecidableEq

/-- A payment channel record as held by the Channel State Store: full deposit
amount, cumulative authorized amount, sequence nonce and expiration time. -/
structure PaymentChannel where
  fullAmount : Int
  authorizedAmount : Int
  nonce : Int
  expiration : Int
  deriving DecidableEq

/-- The Channel State Store, keyed by channel id. -/
abbrev Store := List (Nat × PaymentChannel)

def Store.get : Store → Nat → Option PaymentChannel
  | [], _ => none
  | (k, ch) :: rest, cid => if k = cid then some ch else Store.get rest cid

def Store.set : Store → Nat → PaymentChannel → Store
  | [], _, _ => []
  | (k, ch) :: rest, cid, newCh =>
      if k = cid then (k, newCh) :: rest else (k, ch) :: Store.set rest cid newCh

/-- The claimed income plus call metadata supplied by the Call Interceptor:
claimed incremental income, channel id (absent when the envelope lacks it),
method name (absent when it cannot be resolved), and the caller's claimed
nonce and previous authorized amount. -/
structure IncomeRecord where
  income : Int
  channelId : Option Nat
  methodName : Option String
  claimedNonce : Int
  claimedPreviousAuthorized : Int
  deriving DecidableEq

/-- On-chain committed channel facts read from the Chain Oracle. -/
structure ChainInfo where
  fullAmount : Int
  expiration : Int
  deriving DecidableEq

/-- The validator's collaborators: the Pricing Policy (a pure function from
method name to a non-negative required price), the read-only Chain Oracle,
and the current time used for the expiration check. -/
structure Env where
  price : String → Nat
  oracle : Nat → Option ChainInfo
  now : Int

/-- Modelled from the spec: steps 1 to 3 of the validation algorithm of the
design document (the body of incomeValidator.Validate is an unimplemented TODO
stub in escrow/income.go).  Reject with InvalidArgument when the claimed
income is negative, the channel id is absent or the method name cannot be
resolved; resolve the required price; reject with PermissionDenied when the
claimed income is below it. -/
def preCheck (price : String → Nat) (rec : IncomeRecord) : Except ErrKind (Nat × Nat) :=
  if rec.income < 0 then Except.error ErrKind.invalidArgument
  else
    match rec.channelId, rec.methodName with
    | some cid, some m =>
        if rec.income < (price m : Int) then Except.error ErrKind.permissionDenied
        else Except.ok (cid, price m)
    | _, _ => Except.error ErrKind.invalidArgument

/-- Modelled from the spec: step 4's fetch with the one-time Chain Oracle
reconciliation fallback; a channel missing from the store but committed
on chain is mirrored with zero authorized amount and zero nonce. -/
def fetchChannel (env : Env) (s : Store) (cid : Nat) : Option PaymentChannel :=
  match Store.get s cid with
  | some ch => some ch
  | none =>
      match env.oracle cid with
      | some info =>
          some { fullAmount := info.fullAmount, authorizedAmount := 0,
                 nonce := 0, expiration := info.expiration }
      | none => none

/-- Modelled from the spec: steps 4 to 6 evaluated on one snapshot of the
store.  FailedPrecondition for an unknown channel or a claimed previous
amount or nonce differing from the current values; ResourceExhausted when the
prospective amount would exceed the deposit or the channel has expired. -/
def stateCheck (env : Env) (s : Store) (rec : IncomeRecord) (cid : Nat) :
    Except ErrKind PaymentChannel :=
  match fetchChannel env s cid with
  | none => Except.error ErrKind.failedPrecondition
  | some ch =>
      if rec.claimedPreviousAuthorized = ch.authorizedAmount ∧ rec.claimedNonce = ch.nonce then
        if ch.authorizedAmount + rec.income ≤ ch.fullAmount ∧ env.now ≤ ch.expiration then
          Except.ok ch
        else Except.error ErrKind.resourceExhausted
      else Except.error ErrKind.failedPrecondition

/-- Modelled from the spec: the store's atomic compare-and-update primitive of
step 7; it advances the authorized amount by delta and the nonce by one only
when the record still carries the expected authorized amount and nonce. -/
def compareAndAdvance (s : Store) (cid : Nat)
    (expectedAuthorized expectedNonce delta : Int) : Option Store :=
  match Store.get s cid with
  | none => none
  | some ch =>
      if ch.authorizedAmount = expectedAuthorized ∧ ch.nonce = expectedNonce then
        some (Store.set s cid
          { fullAmount := ch.fullAmount, authorizedAmount := ch.authorizedAmount + delta,
            nonce := ch.nonce + 1, expiration := ch.expiration })
      else none

/-- Outcome of one fetch-check-update round: a terminal rejection, an accepted
update producing the new store, or a lost compare-and-update race. -/
inductive AttemptResult where
  | reject (e : ErrKind)
  | accept (s : Store)
  | conflict
  deriving DecidableEq

/-- Modelled from the spec: one round of steps 4 to 7, with the snapshot of
the store seen at the fetch and the snapshot seen at the conditional update
given separately so that concurrent interference between the two can be
expressed. -/
def attempt (env : Env) (rec : IncomeRecord) (cid : Nat) (sFetch sCas : Store) :
    AttemptResult :=
  match stateCheck env sFetch rec cid with
  | Except.error e => AttemptResult.reject e
  | Except.ok ch =>
      match compareAndAdvance sCas cid ch.authorizedAmount ch.nonce rec.income with
      | some s' => AttemptResult.accept s'
      | none => AttemptResult.conflict

/-- Modelled from the spec: the whole validation algorithm of the design
document over four successive snapshots of the store (first fetch, first
conditional update, the retry's fetch, the retry's conditional update).  A
lost race is retried exactly once from the fetch step; a second lost race is
rejected with Aborted. -/
def validateRun (env : Env) (rec : IncomeRecord) (s1 s2 s3 s4 : Store) :
    Option ErrKind × Store :=
  match preCheck env.price rec with
  | Except.error e => (some e, s1)
  | Except.ok (cid, _) =>
      match attempt env rec cid s1 s2 with
      | AttemptResult.reject e => (some e, s2)
      | AttemptResult.accept s' => (none, s')
      | AttemptResult.conflict =>
          match attempt env rec cid s3 s4 with
          | AttemptResult.reject e => (some e, s4)
          | AttemptResult.accept s' => (none, s')
          | AttemptResult.conflict => (some ErrKind.aborted, s4)

/-- Modelled from the spec: the validation algorithm run without concurrent
interference, every snapshot being the same store. -/
def validate (env : Env) (rec : IncomeRecord) (s : Store) : Option ErrKind × Store :=
  validateRun env rec s s s s

/-- gRPC stream context information as carried by handler.GrpcStreamContext
(metadata such as an invoice id). -/
structure GrpcStreamContext where
  metadata : List (String × String)

/-- IncomeData from escrow/income.go: the claimed income (a possibly nil big
integer) and the possibly nil gRPC stream context. -/
structure IncomeData where
  income : Option Int
  grpcContext : Option GrpcStreamContext

/-- The concrete incomeValidator.Validate of escrow/income.go as written: its
body is a TODO stub that returns nil for every input. -/
def incomeValidatorValidate (_d : IncomeData) : Option ErrKind := none

/-- The configuration values read by config.Validate. -/
structure Config where
  daemonType : String
  sslCert : String
  sslKey : String

/-- config.Validate from the config package: an unrecognized daemon type is an
error; then SSL requires the certificate path and the key path to be both
empty or both set. -/
def configValidate (c : Config) : Option String :=
  if c.daemonType = "grpc" ∨ c.daemonType = "http" then
    if (c.sslCert ≠ "" ∧ c.sslKey = "") ∨ (c.sslCert = "" ∧ c.sslKey ≠ "") then
      some "SSL requires both key and certificate when enabled"
    else none
  else some ("unrecognized DAEMON_TYPE " ++ c.daemonType)

/-- The per-channel invariant of the data model: the authorized amount never
exceeds the full deposit amount, checked over every record of the store. -/
def ChannelInvB (s : Store) : Bool :=
  s.all fun kv => decide (kv.2.authorizedAmount ≤ kv.2.fullAmount)

/-- A sequence of validation operations run against one store. -/
def runOps : List (Env × IncomeRecord) → Store → Store
  | [], s => s
  | op :: rest, s => runOps rest (validate op.1 op.2 s).2

/-- Example environment: every method costs 10, no oracle fallback, time 0. -/
def exEnv : Env :=
  { price := fun _ => 10, oracle := fun _ => none, now := 0 }

/-- Example channel of the design document's concrete scenario. -/
def exChannel : PaymentChannel :=
  { fullAmount := 100, authorizedAmount := 20, nonce := 5, expiration := 1000 }

/-- Example store holding the example channel under id 1. -/
def exStore : Store := [(1, exChannel)]

/-- Example accept-eligible income record for the example channel. -/
def exRecord : IncomeRecord :=
  { income := 10, channelId := some 1, methodName := some "m",
    claimedNonce := 5, claimedPreviousAuthorized := 20 }

lemma Store.get_set_self {s : Store} {cid : Nat} {ch0 ch : PaymentChannel}
    (h : Store.get s cid = some ch0) :
    Store.get (Store.set s cid ch) cid = some ch := by
  induction s with
  | nil => simp [Store.get] at h
  | cons kv rest ih =>
    obtain ⟨k, c⟩ := kv
    by_cases hk : k = cid
    · simp [Store.get, Store.set, hk]
    · simp [Store.get, Store.set, hk] at h ⊢
      exact ih h

lemma Store.get_set_ne {s : Store} {cid cid' : Nat} {ch : PaymentChannel}
    (h : cid' ≠ cid) :
    Store.get (Store.set s cid ch) cid' = Store.get s cid' := by
  induction s with
  | nil => simp [Store.set]
  | cons kv rest ih =>
    obtain ⟨k, c⟩ := kv
    by_cases hk : k = cid
    · subst hk
      simp [Store.get, Store.set, Ne.symm h]
    · by_cases hk' : k = cid'
      · simp [Store.get, Store.set, hk, hk', h]
      · simp [Store.get, Store.set, hk, hk', ih]

lemma Store.get_mem {s : Store} {cid : Nat} {ch : PaymentChannel}
    (h : Store.get s cid = some ch) : (cid, ch) ∈ s := by
  induction s with
  | nil => simp [Store.get] at h
  | cons kv rest ih =>
    obtain ⟨k, c⟩ := kv
    by_cases hk : k = cid
    · subst hk
      simp [Store.get] at h
      subst h
      exact List.mem_cons_self _ _
    · simp [Store.get, hk] at h
      exact List.mem_cons_of_mem _ (ih h)

lemma Store.mem_set {s : Store} {cid : Nat} {ch : PaymentChannel} {kv : Nat × PaymentChannel}
    (h : kv ∈ Store.set s cid ch) : kv ∈ s ∨ kv.2 = ch := by
  induction s with
  | nil => simp [Store.set] at h
  | cons kv0 rest ih =>
    obtain ⟨k, c⟩ := kv0
    by_cases hk : k = cid
    · simp [Store.set, hk] at h
      rcases h with h | h
      · right
        rw [h]
      · left
        exact List.mem_cons_of_mem _ h
    · simp [Store.set, hk] at h
      rcases h with h | h
      · left
        rw [h]
        exact List.mem_cons_self _ _
      · rcases ih h with h' | h'
        · left
          exact List.mem_cons_of_mem _ h'
        · right
          exact h'

lemma ChannelInvB_get {s : Store} {cid : Nat} {ch : PaymentChannel}
    (hinv : ChannelInvB s = true) (h : Store.get s cid = some ch) :
    ch.authorizedAmount ≤ ch.fullAmount := by
  unfold ChannelInvB at hinv
  exact of_decide_eq_true (List.all_eq_true.mp hinv _ (Store.get_mem h))

lemma ChannelInvB_set {s : Store} {cid : Nat} {ch : PaymentChannel}
    (hinv : ChannelInvB s = true) (hch : ch.authorizedAmount ≤ ch.fullAmount) :
    ChannelInvB (Store.set s cid ch) = true := by
  unfold ChannelInvB at hinv ⊢
  rw [List.all_eq_true] at hinv ⊢
  intro kv hkv
  rcases Store.mem_set hkv with h | h
  · exact hinv kv h
  · rw [h]
    exact decide_eq_true hch

lemma preCheck_ok_of {price : String → Nat} {rec : IncomeRecord} {cid : Nat} {m : String}
    (hcid : rec.channelId = some cid) (hm : rec.methodName = some m)
    (h0 : 0 ≤ rec.income) (hp : (price m : Int) ≤ rec.income) :
    preCheck price rec = Except.ok (cid, price m) := by
  have h1 : ¬ rec.income < 0 := by omega
  have h2 : ¬ rec.income < (price m : Int) := by omega
  unfold preCheck
  simp [hcid, hm, h1, h2]

lemma preCheck_permissionDenied_of {price : String → Nat} {rec : IncomeRecord}
    {cid : Nat} {m : String}
    (hcid : rec.channelId = some cid) (hm : rec.methodName = some m)
    (h0 : 0 ≤ rec.income) (hp : rec.income < (price m : Int)) :
    preCheck price rec = Except.error ErrKind.permissionDenied := by
  have h1 : ¬ rec.income < 0 := by omega
  unfold preCheck
  simp [hcid, hm, h1, hp]

lemma preCheck_invalidArgument_of {price : String → Nat} {rec : IncomeRecord}
    (h : rec.income < 0 ∨ rec.channelId = none ∨ rec.methodName = none) :
    preCheck price rec = Except.error ErrKind.invalidArgument := by
  unfold preCheck
  rcases h with h | h | h
  · rw [if_pos h]
  · by_cases h1 : rec.income < 0
    · rw [if_pos h1]
    · rw [if_neg h1, h]
  · by_cases h1 : rec.income < 0
    · rw [if_pos h1]
    · rw [if_neg h1, h]
      rcases hc : rec.channelId with _ | cid <;> simp

lemma preCheck_ok_nonneg {price : String → Nat} {rec : IncomeRecord} {x : Nat × Nat}
    (h : preCheck price rec = Except.ok x) : 0 ≤ rec.income := by
  unfold preCheck at h
  split at h
  · exact Except.noConfusion h
  · omega

lemma stateCheck_ok_of {env : Env} {s : Store} {rec : IncomeRecord} {cid : Nat}
    {ch : PaymentChannel}
    (hget : Store.get s cid = some ch)
    (hprev : rec.claimedPreviousAuthorized = ch.authorizedAmount)
    (hnonce : rec.claimedNonce = ch.nonce)
    (hcap : ch.authorizedAmount + rec.income ≤ ch.fullAmount)
    (hexp : env.now ≤ ch.expiration) :
    stateCheck env s rec cid = Except.ok ch := by
  unfold stateCheck fetchChannel
  rw [hget]
  simp [hprev, hnonce, hcap, hexp]

lemma stateCheck_mismatch_of {env : Env} {s : Store} {rec : IncomeRecord} {cid : Nat}
    {ch : PaymentChannel}
    (hget : Store.get s cid = some ch)
    (hmis : rec.claimedPreviousAuthorized ≠ ch.authorizedAmount ∨ rec.claimedNonce ≠ ch.nonce) :
    stateCheck env s rec cid = Except.error ErrKind.failedPrecondition := by
  have hc : ¬ (rec.claimedPreviousAuthorized = ch.authorizedAmount ∧ rec.claimedNonce = ch.nonce) := by
    tauto
  unfold stateCheck fetchChannel
  rw [hget]
  simp [hc]

lemma stateCheck_exhausted_of {env : Env} {s : Store} {rec : IncomeRecord} {cid : Nat}
    {ch : PaymentChannel}
    (hget : Store.get s cid = some ch)
    (hprev : rec.claimedPreviousAuthorized = ch.authorizedAmount)
    (hnonce : rec.claimedNonce = ch.nonce)
    (hre : ch.fullAmount < ch.authorizedAmount + rec.income ∨ ch.expiration < env.now) :
    stateCheck env s rec cid = Except.error ErrKind.resourceExhausted := by
  have hc : ¬ (ch.authorizedAmount + rec.income ≤ ch.fullAmount ∧ env.now ≤ ch.expiration) := by
    omega
  unfold stateCheck fetchChannel
  rw [hget]
  simp [hprev, hnonce, hc]

lemma stateCheck_ok_facts {env : Env} {s : Store} {rec : IncomeRecord} {cid : Nat}
    {ch : PaymentChannel}
    (h : stateCheck env s rec cid = Except.ok ch) :
    fetchChannel env s cid = some ch ∧
    rec.claimedPreviousAuthorized = ch.authorizedAmount ∧ rec.claimedNonce = ch.nonce ∧
    ch.authorizedAmount + rec.income ≤ ch.fullAmount ∧ env.now ≤ ch.expiration := by
  unfold stateCheck at h
  split at h
  · exact Except.noConfusion h
  · rename_i ch0 hfetch
    split at h
    · rename_i hmatch
      split at h
      · rename_i hband
        injection h with h2
        subst h2
        exact ⟨hfetch, hmatch.1, hmatch.2, hband.1, hband.2⟩
      · exact Except.noConfusion h
    · exact Except.noConfusion h

lemma fetchChannel_of_get {env : Env} {s : Store} {cid : Nat} {ch : PaymentChannel}
    (h : Store.get s cid = some ch) : fetchChannel env s cid = some ch := by
  unfold fetchChannel
  rw [h]

lemma compareAndAdvance_of_get {s : Store} {cid : Nat} {ch : PaymentChannel} {d : Int}
    (hget : Store.get s cid = some ch) :
    compareAndAdvance s cid ch.authorizedAmount ch.nonce d =
      some (Store.set s cid
        { fullAmount := ch.fullAmount, authorizedAmount := ch.authorizedAmount + d,
          nonce := ch.nonce + 1, expiration := ch.expiration }) := by
  unfold compareAndAdvance
  rw [hget]
  simp

lemma compareAndAdvance_some_facts {s : Store} {cid : Nat} {ea en d : Int} {s' : Store}
    (h : compareAndAdvance s cid ea en d = some s') :
    ∃ ch, Store.get s cid = some ch ∧ ch.authorizedAmount = ea ∧ ch.nonce = en ∧
      s' = Store.set s cid
        { fullAmount := ch.fullAmount, authorizedAmount := ch.authorizedAmount + d,
          nonce := ch.nonce + 1, expiration := ch.expiration } := by
  unfold compareAndAdvance at h
  split at h
  · exact Option.noConfusion h
  · rename_i ch hget
    split at h
    · rename_i hcond
      injection h with h2
      exact ⟨ch, hget, hcond.1, hcond.2, h2.symm⟩
    · exact Option.noConfusion h

lemma attempt_reject_of_stateError {env : Env} {rec : IncomeRecord} {cid : Nat}
    {sF sC : Store} {e : ErrKind}
    (h : stateCheck env sF rec cid = Except.error e) :
    attempt env rec cid sF sC = AttemptResult.reject e := by
  unfold attempt
  simp [h]

lemma attempt_accept_facts {env : Env} {rec : IncomeRecord} {cid : Nat}
    {sF sC s' : Store}
    (h : attempt env rec cid sF sC = AttemptResult.accept s') :
    ∃ ch, stateCheck env sF rec cid = Except.ok ch ∧
      compareAndAdvance sC cid ch.authorizedAmount ch.nonce rec.income = some s' := by
  unfold attempt at h
  split at h
  · exact AttemptResult.noConfusion h
  · rename_i ch heq
    split at h
    · rename_i s'' hcas
      injection h with h2
      subst h2
      exact ⟨ch, heq, hcas⟩
    · exact AttemptResult.noConfusion h

lemma validate_preError {env : Env} {rec : IncomeRecord} {s : Store} {e : ErrKind}
    (h : preCheck env.price rec = Except.error e) :
    validate env rec s = (some e, s) := by
  unfold validate validateRun
  rw [h]

lemma validate_attempt_reject {env : Env} {rec : IncomeRecord} {s : Store}
    {cid p : Nat} {e : ErrKind}
    (hpre : preCheck env.price rec = Except.ok (cid, p))
    (h : attempt env rec cid s s = AttemptResult.reject e) :
    validate env rec s = (some e, s) := by
  unfold validate validateRun
  rw [hpre]
  simp [h]

lemma validate_attempt_accept {env : Env} {rec : IncomeRecord} {s : Store}
    {cid p : Nat} {s' : Store}
    (hpre : preCheck env.price rec = Except.ok (cid, p))
    (h : attempt env rec cid s s = AttemptResult.accept s') :
    validate env rec s = (none, s') := by
  unfold validate validateRun
  rw [hpre]
  simp [h]

lemma validate_attempt_conflict {env : Env} {rec : IncomeRecord} {s : Store}
    {cid p : Nat}
    (hpre : preCheck env.price rec = Except.ok (cid, p))
    (h : attempt env rec cid s s = AttemptResult.conflict) :
    validate env rec s = (some ErrKind.aborted, s) := by
  unfold validate validateRun
  rw [hpre]
  simp [h]

lemma validate_reject_of_stateError {env : Env} {rec : IncomeRecord} {s : Store}
    {cid p : Nat} {e : ErrKind}
    (hpre : preCheck env.price rec = Except.ok (cid, p))
    (hsc : stateCheck env s rec cid = Except.error e) :
    validate env rec s = (some e, s) :=
  validate_attempt_reject hpre (attempt_reject_of_stateError hsc)

lemma validate_accept_eq {env : Env} {rec : IncomeRecord} {s : Store}
    {cid : Nat} {m : String} {ch : PaymentChannel}
    (hcid : rec.channelId = some cid) (hm : rec.methodName = some m)
    (hp : (env.price m : Int) ≤ rec.income)
    (hget : Store.get s cid = some ch)
    (hprev : rec.claimedPreviousAuthorized = ch.authorizedAmount)
    (hnonce : rec.claimedNonce = ch.nonce)
    (hcap : ch.authorizedAmount + rec.income ≤ ch.fullAmount)
    (hexp : env.now ≤ ch.expiration) :
    validate env rec s =
      (none, Store.set s cid
        { fullAmount := ch.fullAmount, authorizedAmount := ch.authorizedAmount + rec.income,
          nonce := ch.nonce + 1, expiration := ch.expiration }) := by
  have h0 : (0:Int) ≤ rec.income := le_trans (Int.natCast_nonneg _) hp
  have hsc : stateCheck env s rec cid = Except.ok ch :=
    stateCheck_ok_of hget hprev hnonce hcap hexp
  have hcas := compareAndAdvance_of_get (d := rec.income) hget
  have hatt : attempt env rec cid s s =
      AttemptResult.accept (Store.set s cid
        { fullAmount := ch.fullAmount, authorizedAmount := ch.authorizedAmount + rec.income,
          nonce := ch.nonce + 1, expiration := ch.expiration }) := by
    unfold attempt
    simp [hsc, hcas]
  exact validate_attempt_accept (preCheck_ok_of hcid hm h0 hp) hatt

lemma validate_store_cases (env : Env) (rec : IncomeRecord) (s : Store) :
    (validate env rec s).2 = s ∨
    ∃ cid ch, Store.get s cid = some ch ∧ 0 ≤ rec.income ∧
      ch.authorizedAmount + rec.income ≤ ch.fullAmount ∧
      (validate env rec s).2 = Store.set s cid
        { fullAmount := ch.fullAmount, authorizedAmount := ch.authorizedAmount + rec.income,
          nonce := ch.nonce + 1, expiration := ch.expiration } := by
  rcases hpre : preCheck env.price rec with e | ⟨cid, p⟩
  · left
    rw [validate_preError hpre]
  · rcases hatt : attempt env rec cid s s with e | s' | _
    · left
      rw [validate_attempt_reject hpre hatt]
    · obtain ⟨ch, hsc, hcas⟩ := attempt_accept_facts hatt
      obtain ⟨ch2, hget2, hea, hen, hs'⟩ := compareAndAdvance_some_facts hcas
      obtain ⟨hfetch, hprev, hnonce, hcap, hexp⟩ := stateCheck_ok_facts hsc
      have hch : ch = ch2 := by
        have h2 : fetchChannel env s cid = some ch2 := fetchChannel_of_get hget2
        rw [hfetch] at h2
        exact Option.some.inj h2
      subst hch
      right
      refine ⟨cid, ch, hget2, preCheck_ok_nonneg hpre, hcap, ?_⟩
      rw [validate_attempt_accept hpre hatt, hs']
    · left
      rw [validate_attempt_conflict hpre hatt]

lemma validate_step (env : Env) (rec : IncomeRecord) (s : Store)
    (hinv : ChannelInvB s = true) :
    ChannelInvB (validate env rec s).2 = true ∧
    ∀ cid ch, Store.get s cid = some ch →
      ∃ ch', Store.get (validate env rec s).2 cid = some ch' ∧
        ch.authorizedAmount ≤ ch'.authorizedAmount := by
  rcases validate_store_cases env rec s with h | ⟨cid, ch, hget, h0, hcap, h⟩
  · rw [h]
    exact ⟨hinv, fun cid ch hg => ⟨ch, hg, le_refl _⟩⟩
  · rw [h]
    constructor
    · exact ChannelInvB_set hinv hcap
    · intro cid' ch' hg
      by_cases hc : cid' = cid
      · subst hc
        rw [hget] at hg
        have hch : ch = ch' := Option.some.inj hg
        subst hch
        refine ⟨_, Store.get_set_self hget, ?_⟩
        show ch.authorizedAmount ≤ ch.authorizedAmount + rec.income
        omega
      · refine ⟨ch', ?_, le_refl _⟩
        rw [Store.get_set_ne hc]
        exact hg

/-- C1 (amended): for every validation input whose claimed income is at least
the required price, whose channel has remaining capacity at least the claimed
income, whose claimed nonce and previous authorized amount match the current
values of the store, and whose channel is unexpired, validation is Accepted
and the stored authorized amount increases by exactly the claimed income while
the nonce increases by one. -/
theorem validate_accept_exact_increase {env : Env} {rec : IncomeRecord} {s : Store}
    {cid : Nat} {m : String} {ch : PaymentChannel}
    (hcid : rec.channelId = some cid) (hm : rec.methodName = some m)
    (hp : (env.price m : Int) ≤ rec.income)
    (hget : Store.get s cid = some ch)
    (hprev : rec.claimedPreviousAuthorized = ch.authorizedAmount)
    (hnonce : rec.claimedNonce = ch.nonce)
    (hcap : ch.authorizedAmount + rec.income ≤ ch.fullAmount)
    (hexp : env.now ≤ ch.expiration) :
    validate env rec s =
      (none, Store.set s cid
        { fullAmount := ch.fullAmount, authorizedAmount := ch.authorizedAmount + rec.income,
          nonce := ch.nonce + 1, expiration := ch.expiration }) :=
  validate_accept_eq hcid hm hp hget hprev hnonce hcap hexp

/-- C1 counterexample: remaining capacity at least the required price does not
suffice for acceptance; with full amount 100, authorized amount 85, price 10
and claimed income 20, the capacity 15 is at least the price but the outcome
is ResourceExhausted, not Accepted. -/
theorem validate_capacity_at_least_price_insufficient :
    ((exEnv.price "m" : Int) ≤ 20) ∧
    ((exEnv.price "m" : Int) ≤ 100 - 85) ∧
    (validate exEnv ⟨20, some 1, some "m", 5, 85⟩ [(1, ⟨100, 85, 5, 1000⟩)]).1 =
      some ErrKind.resourceExhausted ∧
    (validate exEnv ⟨20, some 1, some "m", 5, 85⟩ [(1, ⟨100, 85, 5, 1000⟩)]).1 ≠ none := by
  decide

/-- C1 witness: the concrete scenario of the design document: channel with
full amount 100, authorized amount 20, nonce 5, price 10, claimed income 10,
claimed previous amount 20 and nonce 5 is Accepted and the new state holds
authorized amount 30 and nonce 6. -/
theorem validate_accept_exact_increase_witness :
    validate exEnv exRecord exStore =
      (none, [(1, { fullAmount := 100, authorizedAmount := 30, nonce := 6, expiration := 1000 })]) :=
  (validate_accept_exact_increase (show exRecord.channelId = some 1 from rfl)
    (show exRecord.methodName = some "m" from rfl) (by decide)
    (show Store.get exStore 1 = some exChannel from rfl) rfl rfl (by decide) (by decide)).trans
    (by decide)

/-- C2: the implemented incomeValidator.Validate of escrow/income.go returns
nil for every IncomeData input: every call is reported as successfully
validated and no input is ever rejected with an error status. -/
theorem incomeValidatorValidate_always_nil (d : IncomeData) :
    incomeValidatorValidate d = none := rfl

/-- C3 (amended): for every input that passes the argument checks (claimed
income non-negative, channel id present, method name resolvable) and whose
claimed income is strictly below the required price, validation returns
PermissionDenied and the store is left unchanged. -/
theorem validate_permissionDenied_of_low_income {env : Env} {rec : IncomeRecord}
    {s : Store} {cid : Nat} {m : String}
    (hcid : rec.channelId = some cid) (hm : rec.methodName = some m)
    (h0 : 0 ≤ rec.income) (hp : rec.income < (env.price m : Int)) :
    validate env rec s = (some ErrKind.permissionDenied, s) :=
  validate_preError (preCheck_permissionDenied_of hcid hm h0 hp)

/-- C3 counterexample: a negative claimed income is below the required price
yet validation returns InvalidArgument, not PermissionDenied, because the
argument check of step 1 runs before the price check of step 3. -/
theorem validate_low_income_not_always_permissionDenied :
    ((-1 : Int) < (exEnv.price "m" : Int)) ∧
    (validate exEnv ⟨-1, some 1, some "m", 5, 20⟩ exStore).1 = some ErrKind.invalidArgument ∧
    (validate exEnv ⟨-1, some 1, some "m", 5, 20⟩ exStore).1 ≠ some ErrKind.permissionDenied := by
  decide

/-- C3 witness: the concrete scenario of the design document: claimed income 5
below price 10 on the example channel is rejected with PermissionDenied and
the store is unchanged. -/
theorem validate_permissionDenied_of_low_income_witness :
    validate exEnv ⟨5, some 1, some "m", 5, 20⟩ exStore =
      (some ErrKind.permissionDenied, exStore) :=
  validate_permissionDenied_of_low_income rfl rfl (by decide) (by decide)

/-- C4: for every input whose claimed income is negative, or whose channel id
is absent, or whose method name cannot be resolved, validation returns
InvalidArgument. -/
theorem validate_invalidArgument_of_bad_args {env : Env} {rec : IncomeRecord} {s : Store}
    (h : rec.income < 0 ∨ rec.channelId = none ∨ rec.methodName = none) :
    (validate env rec s).1 = some ErrKind.invalidArgument := by
  rw [validate_preError (preCheck_invalidArgument_of h)]

/-- C4 witness: an input with an absent channel id is rejected with
InvalidArgument. -/
theorem validate_invalidArgument_of_bad_args_witness :
    (validate exEnv ⟨10, none, some "m", 5, 20⟩ exStore).1 = some ErrKind.invalidArgument :=
  validate_invalidArgument_of_bad_args (Or.inr (Or.inl rfl))

/-- C5 (amended): for every input that passes the argument and price checks
and whose claimed previous authorized amount or claimed nonce differs from the
current values of the store for that channel (as happens when replaying an
already-accepted call), validation returns FailedPrecondition and the stored
authorized amount is not advanced. -/
theorem validate_failedPrecondition_of_mismatch {env : Env} {rec : IncomeRecord}
    {s : Store} {cid : Nat} {m : String} {ch : PaymentChannel}
    (hcid : rec.channelId = some cid) (hm : rec.methodName = some m)
    (h0 : 0 ≤ rec.income) (hp : (env.price m : Int) ≤ rec.income)
    (hget : Store.get s cid = some ch)
    (hmis : rec.claimedPreviousAuthorized ≠ ch.authorizedAmount ∨ rec.claimedNonce ≠ ch.nonce) :
    validate env rec s = (some ErrKind.failedPrecondition, s) :=
  validate_reject_of_stateError (preCheck_ok_of hcid hm h0 hp)
    (stateCheck_mismatch_of hget hmis)

/-- C5 counterexample: an input whose claimed values differ from the store but
whose claimed income is below the required price returns PermissionDenied, not
FailedPrecondition, because the price check of step 3 runs before the match
check of step 5. -/
theorem validate_mismatch_not_always_failedPrecondition :
    ((99 : Int) ≠ exChannel.nonce) ∧
    validate exEnv ⟨5, some 1, some "m", 99, 99⟩ exStore =
      (some ErrKind.permissionDenied, exStore) ∧
    (validate exEnv ⟨5, some 1, some "m", 99, 99⟩ exStore).1 ≠ some ErrKind.failedPrecondition := by
  decide

/-- C5 witness: replaying the already-accepted example call (claimed previous
amount 20 and nonce 5) against the advanced store (amount 30, nonce 6) is
rejected with FailedPrecondition and the store does not advance again. -/
theorem validate_failedPrecondition_of_mismatch_witness :
    validate exEnv exRecord [(1, ⟨100, 30, 6, 1000⟩)] =
      (some ErrKind.failedPrecondition, [(1, ⟨100, 30, 6, 1000⟩)]) :=
  validate_failedPrecondition_of_mismatch rfl rfl (by decide) (by decide) rfl
    (Or.inl (by decide))

/-- C6: for every input that passes the earlier checks, if the prospective new
authorized amount exceeds the full deposit amount of the channel, or the
expiration of the channel has passed, validation returns ResourceExhausted
and the stored state is unchanged. -/
theorem validate_resourceExhausted_of_overflow_or_expiry {env : Env} {rec : IncomeRecord}
    {s : Store} {cid : Nat} {m : String} {ch : PaymentChannel}
    (hcid : rec.channelId = some cid) (hm : rec.methodName = some m)
    (h0 : 0 ≤ rec.income) (hp : (env.price m : Int) ≤ rec.income)
    (hget : Store.get s cid = some ch)
    (hprev : rec.claimedPreviousAuthorized = ch.authorizedAmount)
    (hnonce : rec.claimedNonce = ch.nonce)
    (hre : ch.fullAmount < ch.authorizedAmount + rec.income ∨ ch.expiration < env.now) :
    validate env rec s = (some ErrKind.resourceExhausted, s) :=
  validate_reject_of_stateError (preCheck_ok_of hcid hm h0 hp)
    (stateCheck_exhausted_of hget hprev hnonce hre)

/-- C6 witness: the concrete scenario of the design document: channel with
full amount 100 and authorized amount 95, price 10 and claimed income 10 is
rejected with ResourceExhausted (105 would exceed 100) and the store is
unchanged. -/
theorem validate_resourceExhausted_of_overflow_or_expiry_witness :
    validate exEnv ⟨10, some 1, some "m", 5, 95⟩ [(1, ⟨100, 95, 5, 1000⟩)] =
      (some ErrKind.resourceExhausted, [(1, ⟨100, 95, 5, 1000⟩)]) :=
  validate_resourceExhausted_of_overflow_or_expiry rfl rfl (by decide) (by decide) rfl rfl rfl
    (Or.inl (by decide))

/-- C7: when the first conditional update loses the race, the whole validation
is retried exactly once from the state-fetch step (the outcome is exactly the
outcome of one further fetch-check-update round, without re-running the
argument and price checks), and when the conditional update fails a second
time the outcome is Aborted. -/
theorem validateRun_retries_once_then_aborts {env : Env} {rec : IncomeRecord}
    {cid p : Nat} {s1 s2 s3 s4 : Store}
    (hpre : preCheck env.price rec = Except.ok (cid, p))
    (h1 : attempt env rec cid s1 s2 = AttemptResult.conflict) :
    validateRun env rec s1 s2 s3 s4 =
      match attempt env rec cid s3 s4 with
      | AttemptResult.reject e => (some e, s4)
      | AttemptResult.accept s' => (none, s')
      | AttemptResult.conflict => (some ErrKind.aborted, s4) := by
  unfold validateRun
  rw [hpre]
  simp [h1]

/-- C7 witness: a run whose two conditional updates both observe a store that
differs from the fetched snapshot (authorized amount 30 and nonce 6 instead of
the fetched 20 and 5) loses the race twice and is rejected with Aborted. -/
theorem validateRun_retries_once_then_aborts_witness :
    validateRun exEnv exRecord exStore [(1, ⟨100, 30, 6, 1000⟩)]
        exStore [(1, ⟨100, 30, 6, 1000⟩)] =
      (some ErrKind.aborted, [(1, ⟨100, 30, 6, 1000⟩)]) :=
  (validateRun_retries_once_then_aborts
    (show preCheck exEnv.price exRecord = Except.ok (1, 10) from rfl) (by decide)).trans
    (by decide)

/-- C8: for every starting store satisfying the channel invariant (authorized
amount at most full amount for every record) and every sequence of validation
operations, the invariant still holds after running the sequence, and the
stored authorized amount of every channel is monotonically non-decreasing
along the run. -/
theorem runOps_invariant_and_monotone (ops : List (Env × IncomeRecord)) (s : Store)
    (hinv : ChannelInvB s = true) :
    ChannelInvB (runOps ops s) = true ∧
    ∀ cid ch, Store.get s cid = some ch →
      ∃ ch', Store.get (runOps ops s) cid = some ch' ∧
        ch.authorizedAmount ≤ ch'.authorizedAmount := by
  induction ops generalizing s with
  | nil => exact ⟨hinv, fun cid ch hg => ⟨ch, hg, le_refl _⟩⟩
  | cons op rest ih =>
    simp only [runOps]
    obtain ⟨hinv', hmono'⟩ := validate_step op.1 op.2 s hinv
    obtain ⟨hinv'', hmono''⟩ := ih _ hinv'
    refine ⟨hinv'', ?_⟩
    intro cid ch hg
    obtain ⟨ch1, hg1, hle1⟩ := hmono' cid ch hg
    obtain ⟨ch2, hg2, hle2⟩ := hmono'' cid ch1 hg1
    exact ⟨ch2, hg2, le_trans hle1 hle2⟩

/-- C8 witness: the example store satisfies the invariant and still satisfies
it after two validation operations. -/
theorem runOps_invariant_and_monotone_witness :
    ChannelInvB exStore = true ∧
    ChannelInvB (runOps [(exEnv, exRecord), (exEnv, exRecord)] exStore) = true :=
  ⟨by decide,
    (runOps_invariant_and_monotone [(exEnv, exRecord), (exEnv, exRecord)] exStore (by decide)).1⟩

/-- C10: config.Validate returns an error exactly when the daemon type is
neither grpc nor http, or exactly one of the SSL certificate path and the SSL
key path is non-empty; with a recognized daemon type and the two SSL paths
both empty or both set it returns nil. -/
theorem configValidate_error_iff (c : Config) :
    configValidate c ≠ none ↔
      ((c.daemonType ≠ "grpc" ∧ c.daemonType ≠ "http") ∨
        ((c.sslCert ≠ "" ∧ c.sslKey = "") ∨ (c.sslCert = "" ∧ c.sslKey ≠ ""))) := by
  unfold configValidate
  split_ifs with h1 h2
  · simp only [ne_eq, reduceCtorEq, not_false_eq_true, true_iff]
    tauto
  · simp only [ne_eq, not_true_eq_false, false_iff]
    tauto
  · simp only [ne_eq, reduceCtorEq, not_false_eq_true, true_iff]
    tauto
